import Mathlib

/-!
# Verification of the Pod mutation handler

A shallow embedding of `applySecurityDefaults` from
`cmd/webhook-server/main.go` together with the Kubernetes objects it reads
and the control-plane calls it makes.

* Go maps are association lists read through `StringMap.find` / `StringMap.index`
  and written through `StringMap.assign`.
* A run-time panic of the Go code (index out of range, nil dereference) is the
  `Except.error` case of the result.
* The control plane is an explicit state threaded through the handler; every
  client call is appended to a call log.
* Logging (`log.Printf`, `klog.Infof`) has no effect on the result and is left out.
-/

set_option autoImplicit false

namespace Webhook

/-! ## Data model -/

/-- A Go `map[string]string`, kept as an association list. -/
abbrev StringMap := List (String × String)

/-- The comma-ok lookup `v, ok := m[k]`: first entry stored under `k`. -/
def StringMap.find : StringMap → String → Option String
  | [], _ => none
  | (k', v) :: rest, k => if k' = k then some v else StringMap.find rest k

/-- The plain Go index expression `m[k]`: the empty string when `k` is not a key
(also for a nil map). -/
def StringMap.index (m : StringMap) (k : String) : String :=
  (m.find k).getD ""

/-- The Go assignment `m[k] = v`: overwrite the entry of `k`, or add one. -/
def StringMap.assign : StringMap → String → String → StringMap
  | [], k, v => [(k, v)]
  | (k', v') :: rest, k, v =>
    if k' = k then (k, v) :: rest else (k', v') :: StringMap.assign rest k v

/-- The type `metav1.GroupVersionResource`. -/
structure GroupVersionResource where
  group : String
  version : String
  resource : String
  deriving DecidableEq, Repr

/-- The type `metav1.OwnerReference` (the fields the spec lists). -/
structure OwnerReference where
  kind : String
  name : String
  deriving DecidableEq, Repr

/-- The type `corev1.PersistentVolumeClaimVolumeSource`. -/
structure PersistentVolumeClaimVolumeSource where
  claimName : String
  readOnly : Bool
  deriving DecidableEq, Repr

/-- The type `corev1.Volume`. `persistentVolumeClaim` is the pointer member the
handler inspects (`none` is nil); `otherSource` stands for whichever other
member of the volume source is set and is never touched by the handler. -/
structure Volume where
  name : String
  persistentVolumeClaim : Option PersistentVolumeClaimVolumeSource
  otherSource : Option String
  deriving DecidableEq, Repr

/-- The type `corev1.PersistentVolumeClaimSpec`; the handler only copies it
as a whole. -/
structure PersistentVolumeClaimSpec where
  storageClassName : Option String
  accessModes : List String
  volumeName : String
  deriving DecidableEq, Repr

/-- The type `corev1.PersistentVolumeClaim`, identified by namespace (`ns`)
and name. -/
structure PersistentVolumeClaim where
  ns : String
  name : String
  spec : PersistentVolumeClaimSpec
  deriving DecidableEq, Repr

/-- The type `appsv1.StatefulSetSpec`: the volume-claim templates. -/
structure StatefulSetSpec where
  volumeClaimTemplates : List PersistentVolumeClaim
  deriving DecidableEq, Repr

/-- The type `appsv1.StatefulSet`. -/
structure StatefulSet where
  ns : String
  name : String
  spec : StatefulSetSpec
  deriving DecidableEq, Repr

/-- The Go zero value of `appsv1.StatefulSet`. -/
def StatefulSet.zero : StatefulSet :=
  { ns := "", name := "", spec := { volumeClaimTemplates := [] } }

/-- The type `corev1.PodSpec`: `nodeSelector = none` is the nil map. -/
structure PodSpec where
  volumes : List Volume
  nodeSelector : Option StringMap
  deriving DecidableEq, Repr

/-- The type `corev1.Pod`. A nil `Labels` map reads like the empty one, so
`labels` is a plain map. -/
structure Pod where
  name : String
  ns : String
  labels : StringMap
  ownerReferences : List OwnerReference
  spec : PodSpec
  deriving DecidableEq, Repr

/-- The type `runtime.RawExtension`: the serialized object. -/
structure RawExtension where
  raw : List UInt8
  deriving DecidableEq, Repr

/-- The type `v1beta1.AdmissionRequest` (the fields the handler reads). -/
structure AdmissionRequest where
  resource : GroupVersionResource
  object : RawExtension
  deriving DecidableEq, Repr

/-- The value carried by a patch operation: the handler stores either the
volume slice or the node-selector map in the empty-interface field `Value`. -/
inductive PatchValue where
  | volumes (vs : List Volume)
  | nodeSelector (m : StringMap)
  deriving DecidableEq, Repr

/-- Modelled from the spec: the `patchOperation` type is declared outside
`main.go`; the spec gives it as operation kind, path and value, and the handler
fills the fields `Op`, `Path` and `Value`. -/
structure PatchOperation where
  op : String
  path : String
  value : PatchValue
  deriving DecidableEq, Repr

/-! ## Control plane -/

/-- The error of a client call, as far as `errors.IsNotFound` and the spec
tell errors apart. -/
inductive StatusError where
  | notFound
  | alreadyExists
  | other (reason : String)
  deriving DecidableEq, Repr

/-- The predicate `errors.IsNotFound`. -/
def StatusError.isNotFound : StatusError → Bool
  | .notFound => true
  | _ => false

/-- The three client-go calls the handler makes, over a control-plane state `σ`.
Reads leave the state alone; a create answers and yields the next state. -/
structure Clientset (σ : Type) where
  getPersistentVolumeClaim : σ → String → String → Except StatusError PersistentVolumeClaim
  getStatefulSet : σ → String → String → Except StatusError StatefulSet
  createPersistentVolumeClaim :
    σ → String → PersistentVolumeClaim → Except StatusError PersistentVolumeClaim × σ

/-- One entry of the call log. -/
inductive Call where
  | getPersistentVolumeClaim (ns name : String)
  | getStatefulSet (ns name : String)
  | createPersistentVolumeClaim (ns : String) (pvc : PersistentVolumeClaim)
  deriving DecidableEq, Repr

/-- Whether a logged call is a create. -/
def Call.isCreate : Call → Bool
  | .createPersistentVolumeClaim _ _ => true
  | _ => false

/-- Whether a logged call is a workload lookup. -/
def Call.isWorkloadLookup : Call → Bool
  | .getStatefulSet _ _ => true
  | _ => false

/-- The control-plane state reached so far and the calls issued so far. -/
structure World (σ : Type) where
  state : σ
  calls : List Call

/-- A Go run-time panic. -/
inductive Panic where
  | indexOutOfRange (index length : Nat)
  | nilPointerDereference
  deriving DecidableEq, Repr

/-! ## The handler -/

/-- The package variable `podResource` (main.go:43); `Group` is left at its
zero value. -/
def podResource : GroupVersionResource :=
  { group := "", version := "v1", resource := "pods" }

/-- The expression `fmt.Sprintf("%s-replica", claimName)` (main.go:82). -/
def replicaName (claimName : String) : String :=
  claimName ++ "-replica"

/-- The value `sts` after `sts,_ := ...Get(...)` (main.go:90): the typed client
allocates the result before the request, so a failed lookup leaves the zero
value and the error is discarded. -/
def stsOrZero (r : Except StatusError StatefulSet) : StatefulSet :=
  match r with
  | .ok sts => sts
  | .error _ => StatefulSet.zero

/-- Lines 84-99 of main.go, the control-plane part of one loop iteration for
the renamed claim `claimName`. `kube` is the clientset obtained from the
kubeconfig at lines 84-85 (both errors are discarded there; `none` is the nil
clientset, whose first use panics). -/
def reconcileClaim {σ : Type} (kube : Option (Clientset σ)) (pod : Pod)
    (claimName : String) (w : World σ) : Except Panic (World σ) :=
  match kube with
  | none => .error .nilPointerDereference
  | some cs =>
    let calls1 := w.calls ++ [Call.getPersistentVolumeClaim pod.ns claimName]
    match cs.getPersistentVolumeClaim w.state pod.ns claimName with
    | .ok _ => .ok { state := w.state, calls := calls1 }
    | .error err =>
      if err.isNotFound then
        match pod.ownerReferences with
        | [] => .error (.indexOutOfRange 0 0)
        | owner :: _ =>
          let sts := stsOrZero (cs.getStatefulSet w.state pod.ns owner.name)
          let calls2 := calls1 ++ [Call.getStatefulSet pod.ns owner.name]
          match sts.spec.volumeClaimTemplates with
          | [] => .error (.indexOutOfRange 0 0)
          | template :: _ =>
            let pvc : PersistentVolumeClaim :=
              { ns := pod.ns, name := claimName, spec := template.spec }
            let created := cs.createPersistentVolumeClaim w.state pod.ns pvc
            .ok { state := created.2,
                  calls := calls2 ++ [Call.createPersistentVolumeClaim pod.ns pvc] }
      else .ok { state := w.state, calls := calls1 }

/-- The loop of main.go:78-101 over the volume slice, front to back: a volume
with a claim source is renamed in place and its claim reconciled, any other
volume is kept. Returns the slice after the loop. -/
def rewriteVolumes {σ : Type} (kube : Option (Clientset σ)) (pod : Pod) :
    List Volume → World σ → Except Panic (List Volume × World σ)
  | [], w => .ok ([], w)
  | v :: rest, w =>
    match v.persistentVolumeClaim with
    | none =>
      match rewriteVolumes kube pod rest w with
      | .error p => .error p
      | .ok (rest', w') => .ok (v :: rest', w')
    | some src =>
      let src' : PersistentVolumeClaimVolumeSource :=
        { src with claimName := replicaName src.claimName }
      let renamed : Volume := { v with persistentVolumeClaim := some src' }
      match reconcileClaim kube pod (replicaName src.claimName) w with
      | .error p => .error p
      | .ok w1 =>
        match rewriteVolumes kube pod rest w1 with
        | .error p => .error p
        | .ok (rest', w') => .ok (renamed :: rest', w')

/-- What a returning run of the handler leaves behind: the two Go results
(`err = none` is the nil error), the control-plane state and the call log. -/
structure Response (σ : Type) where
  patches : List PatchOperation
  err : Option String
  state : σ
  calls : List Call

/-- The function `applySecurityDefaults` (main.go:55-122). `decode` is
`universalDeserializer.Decode` into a Pod, which lives outside `main.go`;
`kube` is the clientset of lines 84-85; `s` is the control-plane state the
request meets. -/
def applySecurityDefaults {σ : Type} (decode : List UInt8 → Except String Pod)
    (kube : Option (Clientset σ)) (s : σ) (req : AdmissionRequest) :
    Except Panic (Response σ) :=
  if req.resource ≠ podResource then
    .ok { patches := [], err := none, state := s, calls := [] }
  else
    match decode req.object.raw with
    | .error e =>
      .ok { patches := [],
            err := some ("could not deserialize pod object: " ++ e),
            state := s, calls := [] }
    | .ok pod =>
      if pod.labels.index "middleware" ≠ "redis" then
        .ok { patches := [], err := none, state := s, calls := [] }
      else
        match rewriteVolumes kube pod pod.spec.volumes { state := s, calls := [] } with
        | .error p => .error p
        | .ok (volumes, w) =>
          let nodeName := "slave-213"
          let nodeSelector : StringMap :=
            match pod.spec.nodeSelector with
            | none => []
            | some m => m
          let nodeSelector := nodeSelector.assign "kubernetes.io/hostname" nodeName
          .ok { patches :=
                  [ { op := "replace", path := "/spec/volumes",
                      value := PatchValue.volumes volumes },
                    { op := "replace", path := "/spec/nodeSelector",
                      value := PatchValue.nodeSelector nodeSelector } ],
                err := none, state := w.state, calls := w.calls }

/-! ## Proof-side vocabulary -/

/-- The effect of one loop iteration on the volume itself (main.go:79-82). -/
def renameVolume (v : Volume) : Volume :=
  match v.persistentVolumeClaim with
  | none => v
  | some src =>
    { v with persistentVolumeClaim := some { src with claimName := replicaName src.claimName } }

/-- The branch condition of main.go:88-89 read off a control-plane state: the
claim lookup fails and the failure is a not-found. -/
def claimMissing {σ : Type} (cs : Clientset σ) (s : σ) (ns name : String) : Bool :=
  match cs.getPersistentVolumeClaim s ns name with
  | .ok _ => false
  | .error err => err.isNotFound

/-- A control plane on which creates take effect: the claim just created can
be fetched afterwards, and a create never makes another claim go missing. -/
structure CreatesTakeEffect {σ : Type} (cs : Clientset σ) : Prop where
  created_found : ∀ s ns pvc,
    claimMissing cs (cs.createPersistentVolumeClaim s ns pvc).2 ns pvc.name = false
  claims_kept : ∀ s ns pvc ns' name, claimMissing cs s ns' name = false →
    claimMissing cs (cs.createPersistentVolumeClaim s ns pvc).2 ns' name = false

/-- The precondition of the spec's reconciler on the owning workload: in every
control-plane state the lookup of `name` in `ns` answers a workload that has at
least one volume-claim template. -/
def WorkloadHasTemplate {σ : Type} (cs : Clientset σ) (ns name : String) : Prop :=
  ∀ s, ∃ sts, cs.getStatefulSet s ns name = .ok sts ∧ sts.spec.volumeClaimTemplates ≠ []

/-! ## Test doubles for the control plane and the decoder -/

/-- First claim of the store with the given namespace and name. -/
def findClaim : List PersistentVolumeClaim → String → String → Option PersistentVolumeClaim
  | [], _, _ => none
  | c :: rest, ns, name => if c.ns = ns ∧ c.name = name then some c else findClaim rest ns name

/-- First workload of the list with the given namespace and name. -/
def findWorkload : List StatefulSet → String → String → Option StatefulSet
  | [], _, _ => none
  | w :: rest, ns, name => if w.ns = ns ∧ w.name = name then some w else findWorkload rest ns name

/-- An in-memory control plane in the shape of section 6 of the spec: the state
is the list of stored claims, the workloads are fixed (the handler only reads
them). get-claim answers the claim or not-found, create-claim stores the claim
or answers already-exists, get-workload answers the workload or not-found. -/
def claimStore (workloads : List StatefulSet) : Clientset (List PersistentVolumeClaim) where
  getPersistentVolumeClaim := fun s ns name =>
    match findClaim s ns name with
    | some c => .ok c
    | none => .error .notFound
  getStatefulSet := fun _ ns name =>
    match findWorkload workloads ns name with
    | some w => .ok w
    | none => .error .notFound
  createPersistentVolumeClaim := fun s ns pvc =>
    match findClaim s ns pvc.name with
    | some _ => (.error .alreadyExists, s)
    | none => (.ok { pvc with ns := ns }, s ++ [{ pvc with ns := ns }])

/-- A control plane that gives the same answers whatever it is asked; the
state counts the creates it received. -/
def fixedAnswers (getClaim : Except StatusError PersistentVolumeClaim)
    (getWorkload : Except StatusError StatefulSet)
    (create : Except StatusError PersistentVolumeClaim) : Clientset Nat where
  getPersistentVolumeClaim := fun _ _ _ => getClaim
  getStatefulSet := fun _ _ _ => getWorkload
  createPersistentVolumeClaim := fun n _ _ => (create, n + 1)

/-- A decoder double: the empty input does not decode, any other input decodes
to `pod`. -/
def decodeTo (pod : Pod) (raw : List UInt8) : Except String Pod :=
  if raw = [] then .error "unexpected end of JSON input" else .ok pod

/-- A decoder double that rejects every input. -/
def decodeNothing (_ : List UInt8) : Except String Pod :=
  .error "no kind is registered"

/-- A request for the Pod resource with a one-byte body. -/
def podRequest : AdmissionRequest :=
  { resource := podResource, object := { raw := [123] } }

/-- A request for the Deployment resource. -/
def deploymentRequest : AdmissionRequest :=
  { resource := { group := "apps", version := "v1", resource := "deployments" },
    object := { raw := [123] } }

/-- The volume of the spec's concrete scenario: claim `data-0`. -/
def dataVolume : Volume :=
  { name := "data",
    persistentVolumeClaim := some { claimName := "data-0", readOnly := false },
    otherSource := none }

/-- A volume without a claim source. -/
def scratchVolume : Volume :=
  { name := "scratch", persistentVolumeClaim := none, otherSource := some "emptyDir" }

/-- The Pod of the spec's concrete scenario. -/
def redisPod : Pod :=
  { name := "redis-0", ns := "default",
    labels := [("middleware", "redis")],
    ownerReferences := [{ kind := "StatefulSet", name := "redis-set" }],
    spec := { volumes := [dataVolume], nodeSelector := none } }

/-- The workload of the spec's concrete scenario: one template with storage
class `fast`. -/
def redisSet : StatefulSet :=
  { ns := "default", name := "redis-set",
    spec := { volumeClaimTemplates :=
      [{ ns := "", name := "data",
         spec := { storageClassName := some "fast", accessModes := [], volumeName := "" } }] } }

/-- The replica claim of the scenario as the handler creates it. -/
def replicaClaim : PersistentVolumeClaim :=
  { ns := "default", name := "data-0-replica",
    spec := { storageClassName := some "fast", accessModes := [], volumeName := "" } }

/-- The scenario Pod without an owner reference. -/
def orphanPod : Pod :=
  { redisPod with ownerReferences := [] }

/-- A workload named like the scenario's but without a volume-claim template. -/
def bareSet : StatefulSet :=
  { ns := "default", name := "redis-set", spec := { volumeClaimTemplates := [] } }

/-- A managed Pod on which the mutation has nothing to change: no claim-backed
volume and the hostname already pinned. -/
def pinnedPod : Pod :=
  { name := "redis-1", ns := "default",
    labels := [("middleware", "redis")],
    ownerReferences := [],
    spec := { volumes := [scratchVolume],
              nodeSelector := some [("kubernetes.io/hostname", "slave-213")] } }

/-- A Pod of another middleware class. -/
def kafkaPod : Pod :=
  { redisPod with labels := [("middleware", "kafka")] }

/-- A managed Pod with a second selector key and a claim-free volume next to
the claim-backed one. -/
def zonedPod : Pod :=
  { redisPod with
    spec := { volumes := [scratchVolume, dataVolume],
              nodeSelector := some [("zone", "a"), ("kubernetes.io/hostname", "slave-7")] } }

/-! ## Maps -/

theorem StringMap.find_assign_same (m : StringMap) (k v : String) :
    StringMap.find (StringMap.assign m k v) k = some v := by
  induction m with
  | nil => simp [StringMap.assign, StringMap.find]
  | cons p rest ih =>
    obtain ⟨k', v'⟩ := p
    by_cases h : k' = k
    · simp [StringMap.assign, StringMap.find, h]
    · simp [StringMap.assign, StringMap.find, h, ih]

theorem StringMap.find_assign_other (m : StringMap) (k v k2 : String) (hk : k2 ≠ k) :
    StringMap.find (StringMap.assign m k v) k2 = StringMap.find m k2 := by
  induction m with
  | nil =>
    have hk' : ¬ k = k2 := fun h => hk h.symm
    simp [StringMap.assign, StringMap.find, hk']
  | cons p rest ih =>
    obtain ⟨k', v'⟩ := p
    have hk' : ¬ k = k2 := fun h => hk h.symm
    by_cases h : k' = k
    · subst h
      simp [StringMap.assign, StringMap.find, hk']
    · by_cases h2 : k' = k2
      · subst h2
        simp [StringMap.assign, StringMap.find, h]
      · simp [StringMap.assign, StringMap.find, h, h2, ih]

theorem replicaName_ne (c : String) : replicaName c ≠ c := by
  intro h
  have hl := congrArg String.length h
  simp [replicaName, String.length_append] at hl
  revert hl
  decide

/-! ## The volume loop -/

theorem renameVolume_of_none {v : Volume} (h : v.persistentVolumeClaim = none) :
    renameVolume v = v := by
  simp [renameVolume, h]

theorem map_renameVolume_of_none {vs : List Volume}
    (h : ∀ v ∈ vs, v.persistentVolumeClaim = none) : vs.map renameVolume = vs := by
  induction vs with
  | nil => rfl
  | cons v rest ih =>
    have hv := renameVolume_of_none (h v (List.mem_cons_self _ _))
    have hr := ih (fun u hu => h u (List.mem_cons_of_mem _ hu))
    simp [hv, hr]

/-- Whenever the loop finishes, the slice it leaves is the input slice with
every claim-backed volume renamed. -/
theorem rewriteVolumes_volumes {σ : Type} (kube : Option (Clientset σ)) (pod : Pod)
    (vs : List Volume) (w : World σ) (out : List Volume) (w' : World σ)
    (h : rewriteVolumes kube pod vs w = .ok (out, w')) : out = vs.map renameVolume := by
  induction vs generalizing w out w' with
  | nil =>
    simp [rewriteVolumes] at h
    simp [h.1]
  | cons v rest ih =>
    cases hv : v.persistentVolumeClaim with
    | none =>
      simp only [rewriteVolumes, hv] at h
      cases hr : rewriteVolumes kube pod rest w with
      | error p => simp [hr] at h
      | ok res =>
        obtain ⟨rest', w2⟩ := res
        simp [hr] at h
        have := ih w rest' w2 hr
        simp [← h.1, this, renameVolume, hv]
    | some src =>
      simp only [rewriteVolumes, hv] at h
      cases hc : reconcileClaim kube pod (replicaName src.claimName) w with
      | error p => simp [hc] at h
      | ok w1 =>
        simp only [hc] at h
        cases hr : rewriteVolumes kube pod rest w1 with
        | error p => simp [hr] at h
        | ok res =>
          obtain ⟨rest', w2⟩ := res
          simp [hr] at h
          have := ih w1 rest' w2 hr
          simp [← h.1, this, renameVolume, hv]

/-- Claim-free volumes in front of the slice are passed over without a call. -/
theorem rewriteVolumes_skip_ok {σ : Type} (kube : Option (Clientset σ)) (pod : Pod)
    (pre vs : List Volume) (w : World σ) (out : List Volume) (w' : World σ)
    (hpre : ∀ v ∈ pre, v.persistentVolumeClaim = none)
    (h : rewriteVolumes kube pod vs w = .ok (out, w')) :
    rewriteVolumes kube pod (pre ++ vs) w = .ok (pre ++ out, w') := by
  induction pre with
  | nil => simpa using h
  | cons v rest ih =>
    have hv := hpre v (List.mem_cons_self _ _)
    have hr := ih (fun u hu => hpre u (List.mem_cons_of_mem _ hu))
    rw [List.cons_append, rewriteVolumes]
    simp [hv, hr]

/-- A panic behind claim-free volumes is the panic of the whole loop. -/
theorem rewriteVolumes_skip_error {σ : Type} (kube : Option (Clientset σ)) (pod : Pod)
    (pre vs : List Volume) (w : World σ) (p : Panic)
    (hpre : ∀ v ∈ pre, v.persistentVolumeClaim = none)
    (h : rewriteVolumes kube pod vs w = .error p) :
    rewriteVolumes kube pod (pre ++ vs) w = .error p := by
  induction pre with
  | nil => simpa using h
  | cons v rest ih =>
    have hv := hpre v (List.mem_cons_self _ _)
    have hr := ih (fun u hu => hpre u (List.mem_cons_of_mem _ hu))
    rw [List.cons_append, rewriteVolumes]
    simp [hv, hr]

/-- A slice without claim-backed volumes is returned as it is, with no call. -/
theorem rewriteVolumes_of_none {σ : Type} (kube : Option (Clientset σ)) (pod : Pod)
    (vs : List Volume) (w : World σ)
    (h : ∀ v ∈ vs, v.persistentVolumeClaim = none) :
    rewriteVolumes kube pod vs w = .ok (vs, w) := by
  have := rewriteVolumes_skip_ok kube pod vs [] w [] w h (by simp [rewriteVolumes])
  simpa using this

/-- With a single claim-backed volume, a reconciliation that returns is the
whole effect of the loop. -/
theorem rewriteVolumes_single_ok {σ : Type} (kube : Option (Clientset σ)) (pod : Pod)
    (pre post : List Volume) (v : Volume) (src : PersistentVolumeClaimVolumeSource)
    (w w1 : World σ)
    (hpre : ∀ u ∈ pre, u.persistentVolumeClaim = none)
    (hpost : ∀ u ∈ post, u.persistentVolumeClaim = none)
    (hv : v.persistentVolumeClaim = some src)
    (hc : reconcileClaim kube pod (replicaName src.claimName) w = .ok w1) :
    rewriteVolumes kube pod (pre ++ v :: post) w =
      .ok (pre ++ renameVolume v :: post, w1) := by
  apply rewriteVolumes_skip_ok kube pod pre (v :: post) w _ _ hpre
  rw [rewriteVolumes]
  simp [hv, hc, rewriteVolumes_of_none kube pod post w1 hpost, renameVolume]

/-- With a single claim-backed volume, a reconciliation that panics is the
panic of the loop. -/
theorem rewriteVolumes_single_error {σ : Type} (kube : Option (Clientset σ)) (pod : Pod)
    (pre post : List Volume) (v : Volume) (src : PersistentVolumeClaimVolumeSource)
    (w : World σ) (p : Panic)
    (hpre : ∀ u ∈ pre, u.persistentVolumeClaim = none)
    (hv : v.persistentVolumeClaim = some src)
    (hc : reconcileClaim kube pod (replicaName src.claimName) w = .error p) :
    rewriteVolumes kube pod (pre ++ v :: post) w = .error p := by
  apply rewriteVolumes_skip_error kube pod pre (v :: post) w _ hpre
  rw [rewriteVolumes]
  simp [hv, hc]

/-! ## One reconciliation -/

/-- A claim that is not missing costs one lookup and changes nothing. -/
theorem reconcileClaim_present {σ : Type} (cs : Clientset σ) (pod : Pod) (name : String)
    (w : World σ) (h : claimMissing cs w.state pod.ns name = false) :
    reconcileClaim (some cs) pod name w =
      .ok { state := w.state,
            calls := w.calls ++ [Call.getPersistentVolumeClaim pod.ns name] } := by
  unfold claimMissing at h
  unfold reconcileClaim
  cases hg : cs.getPersistentVolumeClaim w.state pod.ns name with
  | ok c => simp [hg]
  | error e =>
    rw [hg] at h
    simp at h
    simp [hg, h]

/-- A missing claim is created from the first template of the owning workload. -/
theorem reconcileClaim_missing {σ : Type} (cs : Clientset σ) (pod : Pod) (name : String)
    (w : World σ) (owner : OwnerReference) (owners : List OwnerReference)
    (sts : StatefulSet) (template : PersistentVolumeClaim)
    (templates : List PersistentVolumeClaim)
    (h : claimMissing cs w.state pod.ns name = true)
    (howner : pod.ownerReferences = owner :: owners)
    (hsts : cs.getStatefulSet w.state pod.ns owner.name = .ok sts)
    (htpl : sts.spec.volumeClaimTemplates = template :: templates) :
    reconcileClaim (some cs) pod name w =
      .ok { state := (cs.createPersistentVolumeClaim w.state pod.ns
                        { ns := pod.ns, name := name, spec := template.spec }).2,
            calls := w.calls ++
              [Call.getPersistentVolumeClaim pod.ns name,
               Call.getStatefulSet pod.ns owner.name,
               Call.createPersistentVolumeClaim pod.ns
                 { ns := pod.ns, name := name, spec := template.spec }] } := by
  unfold claimMissing at h
  unfold reconcileClaim
  cases hg : cs.getPersistentVolumeClaim w.state pod.ns name with
  | ok c => simp [hg] at h
  | error e =>
    rw [hg] at h
    simp at h
    simp [hg, h, howner, hsts, stsOrZero, htpl]

/-- With an owner reference whose workload has a template, a reconciliation
returns; its state is the old one or the one after a create, and it logs a
create exactly when the claim was missing. -/
theorem reconcileClaim_returns {σ : Type} (cs : Clientset σ) (pod : Pod) (name : String)
    (w : World σ) (owner : OwnerReference) (owners : List OwnerReference)
    (howner : pod.ownerReferences = owner :: owners)
    (hw : WorkloadHasTemplate cs pod.ns owner.name) :
    ∃ w1, reconcileClaim (some cs) pod name w = .ok w1 ∧
      (w1.state = w.state ∨
        ∃ pvc, pvc.name = name ∧
          w1.state = (cs.createPersistentVolumeClaim w.state pod.ns pvc).2) ∧
      (claimMissing cs w.state pod.ns name = false → w1.state = w.state) ∧
      (claimMissing cs w.state pod.ns name = true →
        ∃ pvc, pvc.name = name ∧
          w1.state = (cs.createPersistentVolumeClaim w.state pod.ns pvc).2) := by
  cases hm : claimMissing cs w.state pod.ns name with
  | false =>
    refine ⟨_, reconcileClaim_present cs pod name w hm, Or.inl rfl, fun _ => rfl, ?_⟩
    intro h
    cases h
  | true =>
    obtain ⟨sts, hsts, hne⟩ := hw w.state
    cases htpl : sts.spec.volumeClaimTemplates with
    | nil => exact absurd htpl hne
    | cons template templates =>
      refine ⟨_, reconcileClaim_missing cs pod name w owner owners sts template templates
        hm howner hsts htpl, Or.inr ⟨_, rfl, rfl⟩, ?_, fun _ => ⟨_, rfl, rfl⟩⟩
      intro h
      cases h

/-- The state after a reconciliation that returned: untouched when the claim
was not missing, otherwise the state after a create of that claim. -/
theorem reconcileClaim_state {σ : Type} (cs : Clientset σ) (pod : Pod) (name : String)
    (w w1 : World σ) (h : reconcileClaim (some cs) pod name w = .ok w1) :
    (claimMissing cs w.state pod.ns name = false ∧ w1.state = w.state) ∨
      ∃ pvc, pvc.name = name ∧
        w1.state = (cs.createPersistentVolumeClaim w.state pod.ns pvc).2 := by
  cases hm : claimMissing cs w.state pod.ns name with
  | false =>
    rw [reconcileClaim_present cs pod name w hm] at h
    left
    refine ⟨rfl, ?_⟩
    rw [← Except.ok.inj h]
  | true =>
    right
    unfold claimMissing at hm
    unfold reconcileClaim at h
    cases hg : cs.getPersistentVolumeClaim w.state pod.ns name with
    | ok c => simp [hg] at hm
    | error e =>
      rw [hg] at hm
      simp at hm
      cases ho : pod.ownerReferences with
      | nil => simp [hg, hm, ho] at h
      | cons owner owners =>
        cases ht : (stsOrZero (cs.getStatefulSet w.state pod.ns owner.name)).spec.volumeClaimTemplates with
        | nil => simp [hg, hm, ho, ht] at h
        | cons template templates =>
          simp [hg, hm, ho, ht] at h
          refine ⟨{ ns := pod.ns, name := name, spec := template.spec }, rfl, ?_⟩
          rw [← h]

/-! ## The loop against the control plane -/

/-- With an owner reference whose workload has a template, the loop returns. -/
theorem rewriteVolumes_returns {σ : Type} (cs : Clientset σ) (pod : Pod)
    (owner : OwnerReference) (owners : List OwnerReference)
    (howner : pod.ownerReferences = owner :: owners)
    (hw : WorkloadHasTemplate cs pod.ns owner.name)
    (vs : List Volume) (w : World σ) :
    ∃ w', rewriteVolumes (some cs) pod vs w = .ok (vs.map renameVolume, w') := by
  induction vs generalizing w with
  | nil => exact ⟨w, rfl⟩
  | cons v rest ih =>
    cases hv : v.persistentVolumeClaim with
    | none =>
      obtain ⟨w', hr⟩ := ih w
      refine ⟨w', ?_⟩
      rw [rewriteVolumes]
      simp [hv, hr, renameVolume]
    | some src =>
      obtain ⟨w1, hc, -⟩ :=
        reconcileClaim_returns cs pod (replicaName src.claimName) w owner owners howner hw
      obtain ⟨w', hr⟩ := ih w1
      refine ⟨w', ?_⟩
      rw [rewriteVolumes]
      simp [hv, hc, hr, renameVolume]

/-- A claim that can be fetched before the loop can be fetched after it. -/
theorem rewriteVolumes_keeps_present {σ : Type} (cs : Clientset σ)
    (hlaw : CreatesTakeEffect cs) (pod : Pod) (ns name : String)
    (vs : List Volume) (w : World σ) (out : List Volume) (w' : World σ)
    (h : rewriteVolumes (some cs) pod vs w = .ok (out, w'))
    (hp : claimMissing cs w.state ns name = false) :
    claimMissing cs w'.state ns name = false := by
  induction vs generalizing w out w' with
  | nil =>
    simp [rewriteVolumes] at h
    rw [← h.2]
    exact hp
  | cons v rest ih =>
    rw [rewriteVolumes] at h
    cases hv : v.persistentVolumeClaim with
    | none =>
      simp only [hv] at h
      cases hr : rewriteVolumes (some cs) pod rest w with
      | error p => simp [hr] at h
      | ok res =>
        obtain ⟨rest', w2⟩ := res
        simp [hr] at h
        rw [← h.2]
        exact ih w rest' w2 hr hp
    | some src =>
      simp only [hv] at h
      cases hc : reconcileClaim (some cs) pod (replicaName src.claimName) w with
      | error p => simp [hc] at h
      | ok w1 =>
        simp only [hc] at h
        cases hr : rewriteVolumes (some cs) pod rest w1 with
        | error p => simp [hr] at h
        | ok res =>
          obtain ⟨rest', w2⟩ := res
          simp [hr] at h
          rw [← h.2]
          apply ih w1 rest' w2 hr
          rcases reconcileClaim_state cs pod _ w w1 hc with ⟨-, hs⟩ | ⟨pvc, -, hs⟩
          · rw [hs]
            exact hp
          · rw [hs]
            exact hlaw.claims_kept _ _ _ _ _ hp

/-- After the loop every replica claim of the slice can be fetched. -/
theorem rewriteVolumes_settles {σ : Type} (cs : Clientset σ)
    (hlaw : CreatesTakeEffect cs) (pod : Pod)
    (vs : List Volume) (w : World σ) (out : List Volume) (w' : World σ)
    (h : rewriteVolumes (some cs) pod vs w = .ok (out, w')) :
    ∀ v ∈ vs, ∀ src, v.persistentVolumeClaim = some src →
      claimMissing cs w'.state pod.ns (replicaName src.claimName) = false := by
  induction vs generalizing w out w' with
  | nil =>
    intro v hv
    cases hv
  | cons u rest ih =>
    rw [rewriteVolumes] at h
    intro v hmem src hsrc
    cases hu : u.persistentVolumeClaim with
    | none =>
      simp only [hu] at h
      cases hr : rewriteVolumes (some cs) pod rest w with
      | error p => simp [hr] at h
      | ok res =>
        obtain ⟨rest', w2⟩ := res
        simp [hr] at h
        rw [← h.2]
        rcases List.mem_cons.mp hmem with heq | hin
        · subst heq
          rw [hu] at hsrc
          cases hsrc
        · exact ih w rest' w2 hr v hin src hsrc
    | some usrc =>
      simp only [hu] at h
      cases hc : reconcileClaim (some cs) pod (replicaName usrc.claimName) w with
      | error p => simp [hc] at h
      | ok w1 =>
        simp only [hc] at h
        cases hr : rewriteVolumes (some cs) pod rest w1 with
        | error p => simp [hr] at h
        | ok res =>
          obtain ⟨rest', w2⟩ := res
          simp [hr] at h
          rw [← h.2]
          rcases List.mem_cons.mp hmem with heq | hin
          · subst heq
            rw [hu] at hsrc
            cases hsrc
            apply rewriteVolumes_keeps_present cs hlaw pod _ _ rest w1 rest' w2 hr
            rcases reconcileClaim_state cs pod _ w w1 hc with ⟨hm, hs⟩ | ⟨pvc, hn, hs⟩
            · rw [hs]
              exact hm
            · rw [hs, ← hn]
              exact hlaw.created_found _ _ _
          · exact ih w1 rest' w2 hr v hin src hsrc

/-- When every replica claim of the slice can be fetched, the loop only looks
the claims up: no create, no workload lookup, same state. -/
theorem rewriteVolumes_settled {σ : Type} (cs : Clientset σ) (pod : Pod)
    (vs : List Volume) (w : World σ)
    (h : ∀ v ∈ vs, ∀ src, v.persistentVolumeClaim = some src →
      claimMissing cs w.state pod.ns (replicaName src.claimName) = false) :
    ∃ w', rewriteVolumes (some cs) pod vs w = .ok (vs.map renameVolume, w') ∧
      w'.state = w.state ∧
      w'.calls.filter Call.isCreate = w.calls.filter Call.isCreate ∧
      w'.calls.filter Call.isWorkloadLookup = w.calls.filter Call.isWorkloadLookup := by
  induction vs generalizing w with
  | nil => exact ⟨w, rfl, rfl, rfl, rfl⟩
  | cons v rest ih =>
    have hrest : ∀ w1 : World σ, w1.state = w.state →
        ∀ u ∈ rest, ∀ src, u.persistentVolumeClaim = some src →
          claimMissing cs w1.state pod.ns (replicaName src.claimName) = false := by
      intro w1 hs u hu src hsrc
      rw [hs]
      exact h u (List.mem_cons_of_mem _ hu) src hsrc
    cases hv : v.persistentVolumeClaim with
    | none =>
      obtain ⟨w', hr, hs, hc1, hc2⟩ := ih w (hrest w rfl)
      refine ⟨w', ?_, hs, hc1, hc2⟩
      rw [rewriteVolumes]
      simp [hv, hr, renameVolume]
    | some src =>
      have hm := h v (List.mem_cons_self _ _) src hv
      have hc := reconcileClaim_present cs pod (replicaName src.claimName) w hm
      obtain ⟨w', hr, hs, hc1, hc2⟩ :=
        ih { state := w.state,
             calls := w.calls ++
               [Call.getPersistentVolumeClaim pod.ns (replicaName src.claimName)] }
          (hrest _ rfl)
      refine ⟨w', ?_, hs, ?_, ?_⟩
      · rw [rewriteVolumes]
        simp [hv, hc, hr, renameVolume]
      · rw [hc1]
        simp [Call.isCreate]
      · rw [hc2]
        simp [Call.isWorkloadLookup]

/-! ## The handler on a managed Pod -/

theorem index_of_find {m : StringMap} {k v : String} (h : m.find k = some v) :
    m.index k = v := by
  simp [StringMap.index, h]

/-- On a managed Pod whose volume loop returns, the handler returns the two
replace operations, no error, and the world the loop left. -/
theorem applySecurityDefaults_managed {σ : Type} (decode : List UInt8 → Except String Pod)
    (kube : Option (Clientset σ)) (s : σ) (req : AdmissionRequest) (pod : Pod)
    (vols : List Volume) (w : World σ)
    (hres : req.resource = podResource)
    (hdec : decode req.object.raw = .ok pod)
    (hlabel : pod.labels.find "middleware" = some "redis")
    (hloop : rewriteVolumes kube pod pod.spec.volumes { state := s, calls := [] } =
      .ok (vols, w)) :
    applySecurityDefaults decode kube s req =
      .ok { patches :=
              [ { op := "replace", path := "/spec/volumes",
                  value := PatchValue.volumes vols },
                { op := "replace", path := "/spec/nodeSelector",
                  value := PatchValue.nodeSelector
                    (StringMap.assign (pod.spec.nodeSelector.getD [])
                      "kubernetes.io/hostname" "slave-213") } ],
            err := none, state := w.state, calls := w.calls } := by
  unfold applySecurityDefaults
  simp only [hres, hdec, index_of_find hlabel, hloop]
  cases pod.spec.nodeSelector <;> simp

/-- On a managed Pod whose volume loop panics, the handler panics. -/
theorem applySecurityDefaults_managed_panic {σ : Type}
    (decode : List UInt8 → Except String Pod)
    (kube : Option (Clientset σ)) (s : σ) (req : AdmissionRequest) (pod : Pod) (p : Panic)
    (hres : req.resource = podResource)
    (hdec : decode req.object.raw = .ok pod)
    (hlabel : pod.labels.find "middleware" = some "redis")
    (hloop : rewriteVolumes kube pod pod.spec.volumes { state := s, calls := [] } =
      .error p) :
    applySecurityDefaults decode kube s req = .error p := by
  unfold applySecurityDefaults
  simp only [hres, hdec, index_of_find hlabel, hloop]
  simp

/-- A returning run on a managed Pod comes from a returning volume loop. -/
theorem applySecurityDefaults_managed_inv {σ : Type}
    (decode : List UInt8 → Except String Pod)
    (kube : Option (Clientset σ)) (s : σ) (req : AdmissionRequest) (pod : Pod)
    (r : Response σ)
    (hres : req.resource = podResource)
    (hdec : decode req.object.raw = .ok pod)
    (hlabel : pod.labels.find "middleware" = some "redis")
    (hret : applySecurityDefaults decode kube s req = .ok r) :
    ∃ w, rewriteVolumes kube pod pod.spec.volumes { state := s, calls := [] } =
        .ok (pod.spec.volumes.map renameVolume, w) ∧
      r = { patches :=
              [ { op := "replace", path := "/spec/volumes",
                  value := PatchValue.volumes (pod.spec.volumes.map renameVolume) },
                { op := "replace", path := "/spec/nodeSelector",
                  value := PatchValue.nodeSelector
                    (StringMap.assign (pod.spec.nodeSelector.getD [])
                      "kubernetes.io/hostname" "slave-213") } ],
            err := none, state := w.state, calls := w.calls } := by
  cases hloop : rewriteVolumes kube pod pod.spec.volumes { state := s, calls := [] } with
  | error p =>
    rw [applySecurityDefaults_managed_panic decode kube s req pod p hres hdec hlabel hloop]
      at hret
    cases hret
  | ok res =>
    obtain ⟨vols, w⟩ := res
    have hv := rewriteVolumes_volumes kube pod _ _ vols w hloop
    subst hv
    rw [applySecurityDefaults_managed decode kube s req pod _ w hres hdec hlabel hloop]
      at hret
    exact ⟨w, rfl, (Except.ok.inj hret).symm⟩

theorem StringMap.assign_of_find {m : StringMap} {k v : String}
    (h : StringMap.find m k = some v) : StringMap.assign m k v = m := by
  induction m with
  | nil => simp [StringMap.find] at h
  | cons p rest ih =>
    obtain ⟨k', v'⟩ := p
    by_cases hk : k' = k
    · subst hk
      simp [StringMap.find] at h
      simp [StringMap.assign, h]
    · simp [StringMap.find, hk] at h
      simp [StringMap.assign, hk, ih h]

/-! ## The in-memory control plane -/

theorem findClaim_append (s t : List PersistentVolumeClaim) (ns name : String) :
    findClaim (s ++ t) ns name =
      match findClaim s ns name with
      | some c => some c
      | none => findClaim t ns name := by
  induction s with
  | nil => simp [findClaim]
  | cons c rest ih =>
    by_cases h : c.ns = ns ∧ c.name = name
    · simp [findClaim, h]
    · simp only [List.cons_append, findClaim, h, if_false]
      exact ih

theorem claimMissing_claimStore (workloads : List StatefulSet)
    (s : List PersistentVolumeClaim) (ns name : String) :
    claimMissing (claimStore workloads) s ns name = (findClaim s ns name).isNone := by
  unfold claimMissing claimStore
  cases h : findClaim s ns name <;> simp [h, StatusError.isNotFound]

/-- Creates take effect on the in-memory control plane. -/
theorem claimStore_createsTakeEffect (workloads : List StatefulSet) :
    CreatesTakeEffect (claimStore workloads) := by
  constructor
  · intro s ns pvc
    rw [claimMissing_claimStore]
    cases h : findClaim s ns pvc.name with
    | some c => simp [claimStore, h]
    | none => simp [claimStore, h, findClaim_append, findClaim]
  · intro s ns pvc ns' name hp
    rw [claimMissing_claimStore] at hp ⊢
    cases h : findClaim s ns pvc.name with
    | some c => simpa [claimStore, h] using hp
    | none =>
      cases h' : findClaim s ns' name with
      | none => simp [h'] at hp
      | some c => simp [claimStore, h, findClaim_append, h']

/-! ## Filters: resource kind and label -/

/-- C6: a request whose resource descriptor is not the Pod resource gets the
empty patch set and no error, for every decoder, so also when the embedded
object cannot be decoded; no control-plane call is made. -/
theorem other_resource_passes_through {σ : Type}
    (decode : List UInt8 → Except String Pod) (kube : Option (Clientset σ)) (s : σ)
    (req : AdmissionRequest) (hres : req.resource ≠ podResource) :
    applySecurityDefaults decode kube s req =
      .ok { patches := [], err := none, state := s, calls := [] } := by
  unfold applySecurityDefaults
  simp [hres]

theorem other_resource_passes_through_witness :
    decodeNothing deploymentRequest.object.raw = .error "no kind is registered" ∧
    applySecurityDefaults decodeNothing (some (claimStore [])) [] deploymentRequest =
      .ok { patches := [], err := none, state := [], calls := [] } :=
  ⟨rfl, other_resource_passes_through decodeNothing (some (claimStore [])) []
    deploymentRequest (by decide)⟩

/-- C5: a Pod request whose decoded Pod does not carry the label
middleware=redis (key absent or any other value) gets the empty patch set and
no error, whatever its volumes, owner references and node selector. -/
theorem unlabelled_pod_passes_through {σ : Type}
    (decode : List UInt8 → Except String Pod) (kube : Option (Clientset σ)) (s : σ)
    (req : AdmissionRequest) (pod : Pod)
    (hres : req.resource = podResource)
    (hdec : decode req.object.raw = .ok pod)
    (hlabel : pod.labels.find "middleware" ≠ some "redis") :
    applySecurityDefaults decode kube s req =
      .ok { patches := [], err := none, state := s, calls := [] } := by
  have hidx : pod.labels.index "middleware" ≠ "redis" := by
    unfold StringMap.index
    cases hf : pod.labels.find "middleware" with
    | none => simp
    | some v =>
      intro hv
      apply hlabel
      rw [hf]
      simpa using hv
  unfold applySecurityDefaults
  simp [hres, hdec, hidx]

theorem unlabelled_pod_passes_through_witness :
    kafkaPod.labels.find "middleware" = some "kafka" ∧
    applySecurityDefaults (decodeTo kafkaPod) (some (claimStore [redisSet])) [] podRequest =
      .ok { patches := [], err := none, state := [], calls := [] } :=
  ⟨by decide, unlabelled_pod_passes_through (decodeTo kafkaPod)
    (some (claimStore [redisSet])) [] podRequest kafkaPod rfl rfl (by decide)⟩

/-! ## Node selector -/

/-- C4: on a managed Pod that decodes and on which the handler returns, the
value `m` of the replace /spec/nodeSelector operation maps the hostname key to
slave-213 and agrees with the input selector on every other key; for a nil
input selector `m` is the one-entry map. -/
theorem node_selector_pinned {σ : Type}
    (decode : List UInt8 → Except String Pod) (kube : Option (Clientset σ)) (s : σ)
    (req : AdmissionRequest) (pod : Pod) (r : Response σ)
    (hres : req.resource = podResource)
    (hdec : decode req.object.raw = .ok pod)
    (hlabel : pod.labels.find "middleware" = some "redis")
    (hret : applySecurityDefaults decode kube s req = .ok r) :
    ∃ vols m,
      r.patches = [⟨"replace", "/spec/volumes", .volumes vols⟩,
                   ⟨"replace", "/spec/nodeSelector", .nodeSelector m⟩] ∧
      m.find "kubernetes.io/hostname" = some "slave-213" ∧
      (∀ k, k ≠ "kubernetes.io/hostname" →
        m.find k = StringMap.find (pod.spec.nodeSelector.getD []) k) ∧
      (pod.spec.nodeSelector = none → m = [("kubernetes.io/hostname", "slave-213")]) := by
  obtain ⟨w, -, hr⟩ :=
    applySecurityDefaults_managed_inv decode kube s req pod r hres hdec hlabel hret
  subst hr
  refine ⟨_, _, rfl, StringMap.find_assign_same _ _ _, ?_, ?_⟩
  · intro k hk
    exact StringMap.find_assign_other _ _ _ k hk
  · intro hnil
    simp [hnil, StringMap.assign]

theorem node_selector_pinned_witness :
    ∃ r, applySecurityDefaults (decodeTo zonedPod) (some (claimStore [redisSet]))
        [replicaClaim] podRequest = .ok r ∧
      ∃ vols m,
        r.patches = [⟨"replace", "/spec/volumes", .volumes vols⟩,
                     ⟨"replace", "/spec/nodeSelector", .nodeSelector m⟩] ∧
        m.find "kubernetes.io/hostname" = some "slave-213" ∧
        (∀ k, k ≠ "kubernetes.io/hostname" →
          m.find k = StringMap.find (zonedPod.spec.nodeSelector.getD []) k) ∧
        (zonedPod.spec.nodeSelector = none →
          m = [("kubernetes.io/hostname", "slave-213")]) :=
  ⟨_, rfl, node_selector_pinned (decodeTo zonedPod) (some (claimStore [redisSet]))
    [replicaClaim] podRequest zonedPod _ rfl rfl (by decide) rfl⟩

/-! ## Shape of the patch -/

/-- C10: on a managed Pod on which the handler returns, the patch has at most
two operations, all of them replace, with /spec/volumes and /spec/nodeSelector
at most once each; the /spec/volumes operation is there and carries the whole
rewritten slice: same length and order as the input, a volume with claim `c`
carries `c-replica` and is otherwise unchanged, a volume without a claim is the
input volume. -/
theorem patch_is_whole_field_replacement {σ : Type}
    (decode : List UInt8 → Except String Pod) (kube : Option (Clientset σ)) (s : σ)
    (req : AdmissionRequest) (pod : Pod) (r : Response σ)
    (hres : req.resource = podResource)
    (hdec : decode req.object.raw = .ok pod)
    (hlabel : pod.labels.find "middleware" = some "redis")
    (hret : applySecurityDefaults decode kube s req = .ok r) :
    r.patches.length ≤ 2 ∧
    (∀ op ∈ r.patches, op.op = "replace") ∧
    (r.patches.filter (fun op => op.path = "/spec/volumes")).length ≤ 1 ∧
    (r.patches.filter (fun op => op.path = "/spec/nodeSelector")).length ≤ 1 ∧
    ∃ vols,
      r.patches.filter (fun op => op.path = "/spec/volumes") =
        [⟨"replace", "/spec/volumes", .volumes vols⟩] ∧
      vols.length = pod.spec.volumes.length ∧
      ∀ (i : Nat) (v : Volume), pod.spec.volumes[i]? = some v →
        (v.persistentVolumeClaim = none → vols[i]? = some v) ∧
        (∀ src, v.persistentVolumeClaim = some src →
          vols[i]? = some { name := v.name,
                            persistentVolumeClaim :=
                              some { claimName := src.claimName ++ "-replica",
                                     readOnly := src.readOnly },
                            otherSource := v.otherSource }) := by
  obtain ⟨w, -, hr⟩ :=
    applySecurityDefaults_managed_inv decode kube s req pod r hres hdec hlabel hret
  subst hr
  refine ⟨by simp, by simp, by simp, by simp, pod.spec.volumes.map renameVolume,
    by simp, by simp, ?_⟩
  intro i v hi
  have hm : (pod.spec.volumes.map renameVolume)[i]? = some (renameVolume v) := by
    simp [List.getElem?_map, hi]
  refine ⟨fun hnone => ?_, fun src hsrc => ?_⟩
  · rw [hm, renameVolume_of_none hnone]
  · rw [hm]
    simp [renameVolume, hsrc, replicaName]

theorem patch_is_whole_field_replacement_witness :
    ∃ r, applySecurityDefaults (decodeTo zonedPod) (some (claimStore [redisSet]))
        [] podRequest = .ok r ∧
      r.patches.length ≤ 2 ∧
      (∀ op ∈ r.patches, op.op = "replace") ∧
      (r.patches.filter (fun op => op.path = "/spec/volumes")).length ≤ 1 ∧
      (r.patches.filter (fun op => op.path = "/spec/nodeSelector")).length ≤ 1 ∧
      ∃ vols,
        r.patches.filter (fun op => op.path = "/spec/volumes") =
          [⟨"replace", "/spec/volumes", .volumes vols⟩] ∧
        vols.length = zonedPod.spec.volumes.length ∧
        ∀ (i : Nat) (v : Volume), zonedPod.spec.volumes[i]? = some v →
          (v.persistentVolumeClaim = none → vols[i]? = some v) ∧
          (∀ src, v.persistentVolumeClaim = some src →
            vols[i]? = some { name := v.name,
                              persistentVolumeClaim :=
                                some { claimName := src.claimName ++ "-replica",
                                       readOnly := src.readOnly },
                              otherSource := v.otherSource }) :=
  ⟨_, rfl, patch_is_whole_field_replacement (decodeTo zonedPod)
    (some (claimStore [redisSet])) [] podRequest zonedPod _ rfl rfl (by decide) rfl⟩

/-! ## Emission is unconditional -/

/-- C8, as the claim states it, fails: on a managed Pod with no claim-backed
volume and the hostname already pinned the handler does not return the empty
patch set; it returns both operations, carrying the unchanged volumes and the
unchanged selector. -/
theorem unchanged_pod_still_patched :
    (∀ v ∈ pinnedPod.spec.volumes, v.persistentVolumeClaim = none) ∧
    StringMap.find (pinnedPod.spec.nodeSelector.getD []) "kubernetes.io/hostname" =
      some "slave-213" ∧
    ∃ r, applySecurityDefaults (decodeTo pinnedPod) (some (claimStore [])) [] podRequest =
        .ok r ∧
      r.patches ≠ [] ∧
      r.patches =
        [⟨"replace", "/spec/volumes", .volumes pinnedPod.spec.volumes⟩,
         ⟨"replace", "/spec/nodeSelector",
            .nodeSelector (pinnedPod.spec.nodeSelector.getD [])⟩] :=
  ⟨by decide, by decide, _, rfl, by simp, rfl⟩

/-- C8 amended: on every managed Pod on which the handler returns, both the
replace /spec/volumes and the replace /spec/nodeSelector operation are emitted,
changed or not; and on a managed Pod with no claim-backed volume and the
hostname already pinned the handler returns, without a control-plane call and
without error, exactly these two operations carrying the input volumes and the
input selector. -/
theorem both_operations_always_emitted {σ : Type}
    (decode : List UInt8 → Except String Pod) (kube : Option (Clientset σ)) (s : σ)
    (req : AdmissionRequest) (pod : Pod)
    (hres : req.resource = podResource)
    (hdec : decode req.object.raw = .ok pod)
    (hlabel : pod.labels.find "middleware" = some "redis") :
    (∀ r, applySecurityDefaults decode kube s req = .ok r →
      ∃ vols m, r.patches = [⟨"replace", "/spec/volumes", .volumes vols⟩,
                             ⟨"replace", "/spec/nodeSelector", .nodeSelector m⟩]) ∧
    ((∀ v ∈ pod.spec.volumes, v.persistentVolumeClaim = none) →
      StringMap.find (pod.spec.nodeSelector.getD []) "kubernetes.io/hostname" =
        some "slave-213" →
      applySecurityDefaults decode kube s req =
        .ok { patches :=
                [⟨"replace", "/spec/volumes", .volumes pod.spec.volumes⟩,
                 ⟨"replace", "/spec/nodeSelector",
                    .nodeSelector (pod.spec.nodeSelector.getD [])⟩],
              err := none, state := s, calls := [] }) := by
  constructor
  · intro r hret
    obtain ⟨w, -, hr⟩ :=
      applySecurityDefaults_managed_inv decode kube s req pod r hres hdec hlabel hret
    subst hr
    exact ⟨_, _, rfl⟩
  · intro hvols hsel
    have hloop := rewriteVolumes_of_none kube pod pod.spec.volumes
      { state := s, calls := [] } hvols
    rw [applySecurityDefaults_managed decode kube s req pod _ _ hres hdec hlabel hloop,
      StringMap.assign_of_find hsel]

theorem both_operations_always_emitted_witness :
    (∀ r, applySecurityDefaults (decodeTo pinnedPod) (none : Option (Clientset Nat)) 0
        podRequest = .ok r →
      ∃ vols m, r.patches = [⟨"replace", "/spec/volumes", .volumes vols⟩,
                             ⟨"replace", "/spec/nodeSelector", .nodeSelector m⟩]) ∧
    ((∀ v ∈ pinnedPod.spec.volumes, v.persistentVolumeClaim = none) →
      StringMap.find (pinnedPod.spec.nodeSelector.getD []) "kubernetes.io/hostname" =
        some "slave-213" →
      applySecurityDefaults (decodeTo pinnedPod) (none : Option (Clientset Nat)) 0
          podRequest =
        .ok { patches :=
                [⟨"replace", "/spec/volumes", .volumes pinnedPod.spec.volumes⟩,
                 ⟨"replace", "/spec/nodeSelector",
                    .nodeSelector (pinnedPod.spec.nodeSelector.getD [])⟩],
              err := none, state := 0, calls := [] }) :=
  both_operations_always_emitted (decodeTo pinnedPod) none 0 podRequest pinnedPod
    rfl rfl (by decide)

/-! ## Get-or-create of the replica claim -/

/-- C1: on a managed Pod whose only claim-backed volume has claim name `X`,
whose first owner reference names a workload that the control plane answers
with at least one volume-claim template, and with get-claim of `X-replica`
answering not-found, the handler returns without error, issues exactly one
create call, for the claim `X-replica` in the namespace of the Pod with the
spec of the first template, and the replace /spec/volumes value carries
`X-replica`, which is not `X`. -/
theorem missing_replica_is_created {σ : Type}
    (decode : List UInt8 → Except String Pod) (cs : Clientset σ) (s : σ)
    (req : AdmissionRequest) (pod : Pod) (pre post : List Volume) (v : Volume)
    (src : PersistentVolumeClaimVolumeSource)
    (owner : OwnerReference) (owners : List OwnerReference)
    (sts : StatefulSet) (template : PersistentVolumeClaim)
    (templates : List PersistentVolumeClaim)
    (hres : req.resource = podResource)
    (hdec : decode req.object.raw = .ok pod)
    (hlabel : pod.labels.find "middleware" = some "redis")
    (hvols : pod.spec.volumes = pre ++ v :: post)
    (hpre : ∀ u ∈ pre, u.persistentVolumeClaim = none)
    (hpost : ∀ u ∈ post, u.persistentVolumeClaim = none)
    (hv : v.persistentVolumeClaim = some src)
    (howner : pod.ownerReferences = owner :: owners)
    (hsts : cs.getStatefulSet s pod.ns owner.name = .ok sts)
    (htpl : sts.spec.volumeClaimTemplates = template :: templates)
    (hget : cs.getPersistentVolumeClaim s pod.ns (src.claimName ++ "-replica") =
      .error .notFound) :
    ∃ r, applySecurityDefaults decode (some cs) s req = .ok r ∧
      r.err = none ∧
      r.calls.filter Call.isCreate =
        [Call.createPersistentVolumeClaim pod.ns
          { ns := pod.ns, name := src.claimName ++ "-replica", spec := template.spec }] ∧
      r.state = (cs.createPersistentVolumeClaim s pod.ns
          { ns := pod.ns, name := src.claimName ++ "-replica", spec := template.spec }).2 ∧
      r.patches.filter (fun op => op.path = "/spec/volumes") =
        [⟨"replace", "/spec/volumes",
          .volumes (pre ++
            { name := v.name,
              persistentVolumeClaim :=
                some { claimName := src.claimName ++ "-replica", readOnly := src.readOnly },
              otherSource := v.otherSource } :: post)⟩] ∧
      src.claimName ++ "-replica" ≠ src.claimName := by
  have hm : claimMissing cs s pod.ns (replicaName src.claimName) = true := by
    simp [claimMissing, replicaName, hget, StatusError.isNotFound]
  have hc := reconcileClaim_missing cs pod (replicaName src.claimName)
    { state := s, calls := [] } owner owners sts template templates hm howner hsts htpl
  have hloop := rewriteVolumes_single_ok (some cs) pod pre post v src
    { state := s, calls := [] } _ hpre hpost hv hc
  rw [← hvols] at hloop
  refine ⟨_, applySecurityDefaults_managed decode (some cs) s req pod _ _ hres hdec hlabel
    hloop, rfl, ?_, rfl, ?_, replicaName_ne src.claimName⟩
  · simp [Call.isCreate, replicaName]
  · simp [renameVolume, hv, replicaName]

theorem missing_replica_is_created_witness :
    ∃ r, applySecurityDefaults (decodeTo redisPod) (some (claimStore [redisSet])) []
        podRequest = .ok r ∧
      r.err = none ∧
      r.calls.filter Call.isCreate =
        [Call.createPersistentVolumeClaim "default" replicaClaim] ∧
      r.state = [replicaClaim] ∧
      r.patches.filter (fun op => op.path = "/spec/volumes") =
        [⟨"replace", "/spec/volumes",
          .volumes [{ name := "data",
                      persistentVolumeClaim :=
                        some { claimName := "data-0-replica", readOnly := false },
                      otherSource := none }]⟩] ∧
      "data-0" ++ "-replica" ≠ "data-0" :=
  missing_replica_is_created (decodeTo redisPod) (claimStore [redisSet]) [] podRequest
    redisPod [] [] dataVolume { claimName := "data-0", readOnly := false }
    { kind := "StatefulSet", name := "redis-set" } [] redisSet
    { ns := "", name := "data",
      spec := { storageClassName := some "fast", accessModes := [], volumeName := "" } }
    [] rfl rfl (by decide) rfl (by decide) (by decide) rfl rfl rfl rfl rfl

/-- C2: on a managed Pod whose only claim-backed volume has claim name `X`,
with get-claim of `X-replica` succeeding, the handler returns without error,
issues the claim lookup and nothing else (no create call, no workload lookup),
leaves the control-plane state as it was, and the replace /spec/volumes value
still carries `X-replica`. -/
theorem existing_replica_is_reused {σ : Type}
    (decode : List UInt8 → Except String Pod) (cs : Clientset σ) (s : σ)
    (req : AdmissionRequest) (pod : Pod) (pre post : List Volume) (v : Volume)
    (src : PersistentVolumeClaimVolumeSource) (existing : PersistentVolumeClaim)
    (hres : req.resource = podResource)
    (hdec : decode req.object.raw = .ok pod)
    (hlabel : pod.labels.find "middleware" = some "redis")
    (hvols : pod.spec.volumes = pre ++ v :: post)
    (hpre : ∀ u ∈ pre, u.persistentVolumeClaim = none)
    (hpost : ∀ u ∈ post, u.persistentVolumeClaim = none)
    (hv : v.persistentVolumeClaim = some src)
    (hget : cs.getPersistentVolumeClaim s pod.ns (src.claimName ++ "-replica") =
      .ok existing) :
    ∃ r, applySecurityDefaults decode (some cs) s req = .ok r ∧
      r.err = none ∧
      r.calls = [Call.getPersistentVolumeClaim pod.ns (src.claimName ++ "-replica")] ∧
      r.calls.filter Call.isCreate = [] ∧
      r.calls.filter Call.isWorkloadLookup = [] ∧
      r.state = s ∧
      r.patches.filter (fun op => op.path = "/spec/volumes") =
        [⟨"replace", "/spec/volumes",
          .volumes (pre ++
            { name := v.name,
              persistentVolumeClaim :=
                some { claimName := src.claimName ++ "-replica", readOnly := src.readOnly },
              otherSource := v.otherSource } :: post)⟩] := by
  have hm : claimMissing cs s pod.ns (replicaName src.claimName) = false := by
    simp [claimMissing, replicaName, hget]
  have hc := reconcileClaim_present cs pod (replicaName src.claimName)
    { state := s, calls := [] } hm
  have hloop := rewriteVolumes_single_ok (some cs) pod pre post v src
    { state := s, calls := [] } _ hpre hpost hv hc
  rw [← hvols] at hloop
  refine ⟨_, applySecurityDefaults_managed decode (some cs) s req pod _ _ hres hdec hlabel
    hloop, rfl, ?_, ?_, ?_, rfl, ?_⟩
  · simp [replicaName]
  · simp [Call.isCreate]
  · simp [Call.isWorkloadLookup]
  · simp [renameVolume, hv, replicaName]

theorem existing_replica_is_reused_witness :
    ∃ r, applySecurityDefaults (decodeTo zonedPod) (some (claimStore [])) [replicaClaim]
        podRequest = .ok r ∧
      r.err = none ∧
      r.calls = [Call.getPersistentVolumeClaim "default" ("data-0" ++ "-replica")] ∧
      r.calls.filter Call.isCreate = [] ∧
      r.calls.filter Call.isWorkloadLookup = [] ∧
      r.state = [replicaClaim] ∧
      r.patches.filter (fun op => op.path = "/spec/volumes") =
        [⟨"replace", "/spec/volumes",
          .volumes ([scratchVolume] ++
            { name := "data",
              persistentVolumeClaim :=
                some { claimName := "data-0" ++ "-replica", readOnly := false },
              otherSource := none } :: [])⟩] :=
  existing_replica_is_reused (decodeTo zonedPod) (claimStore []) [replicaClaim] podRequest
    zonedPod [scratchVolume] [] dataVolume { claimName := "data-0", readOnly := false }
    replicaClaim rfl rfl (by decide) rfl (by decide) (by decide) rfl rfl

/-! ## Two runs, two control planes -/

/-- C3: on a managed Pod whose first owner reference names a workload with a
template, over a control plane on which creates take effect, the handler
returns from every state `s`, and run again on the same request from the state
the first run left it returns the same patch (same claim names, same node
selector), issues no create call and leaves that state unchanged. -/
theorem second_run_repeats_first {σ : Type}
    (decode : List UInt8 → Except String Pod) (cs : Clientset σ) (s : σ)
    (req : AdmissionRequest) (pod : Pod)
    (owner : OwnerReference) (owners : List OwnerReference)
    (hres : req.resource = podResource)
    (hdec : decode req.object.raw = .ok pod)
    (hlabel : pod.labels.find "middleware" = some "redis")
    (howner : pod.ownerReferences = owner :: owners)
    (hw : WorkloadHasTemplate cs pod.ns owner.name)
    (hlaw : CreatesTakeEffect cs) :
    ∃ r1 r2,
      applySecurityDefaults decode (some cs) s req = .ok r1 ∧
      applySecurityDefaults decode (some cs) r1.state req = .ok r2 ∧
      r2.patches = r1.patches ∧
      r2.err = r1.err ∧
      r2.calls.filter Call.isCreate = [] ∧
      r2.state = r1.state := by
  obtain ⟨w1, h1⟩ := rewriteVolumes_returns cs pod owner owners howner hw
    pod.spec.volumes { state := s, calls := [] }
  have hsettled := rewriteVolumes_settles cs hlaw pod pod.spec.volumes _ _ w1 h1
  obtain ⟨w2, h2, hs2, hc2, -⟩ := rewriteVolumes_settled cs pod pod.spec.volumes
    { state := w1.state, calls := [] } hsettled
  refine ⟨_, _,
    applySecurityDefaults_managed decode (some cs) s req pod _ w1 hres hdec hlabel h1,
    applySecurityDefaults_managed decode (some cs) w1.state req pod _ w2 hres hdec hlabel h2,
    rfl, rfl, ?_, hs2⟩
  simpa using hc2

theorem second_run_repeats_first_witness :
    ∃ r1 r2,
      applySecurityDefaults (decodeTo zonedPod) (some (claimStore [redisSet])) []
        podRequest = .ok r1 ∧
      applySecurityDefaults (decodeTo zonedPod) (some (claimStore [redisSet])) r1.state
        podRequest = .ok r2 ∧
      r2.patches = r1.patches ∧
      r2.err = r1.err ∧
      r2.calls.filter Call.isCreate = [] ∧
      r2.state = r1.state :=
  second_run_repeats_first (decodeTo zonedPod) (claimStore [redisSet]) [] podRequest
    zonedPod { kind := "StatefulSet", name := "redis-set" } [] rfl rfl (by decide) rfl
    (fun _ => ⟨redisSet, rfl, by decide⟩) (claimStore_createsTakeEffect [redisSet])

/-- C7: on a managed Pod whose first owner reference names a workload with a
template, the handler returns with a nil error and the same patch over any two
control planes, whatever they answer to get-claim (found, not-found, another
error) and to create-claim (success, already-exists, another error); the
volumes value holds every claim-backed volume renamed. -/
theorem patch_independent_of_control_plane {σ τ : Type}
    (decode : List UInt8 → Except String Pod)
    (cs1 : Clientset σ) (s1 : σ) (cs2 : Clientset τ) (s2 : τ)
    (req : AdmissionRequest) (pod : Pod)
    (owner : OwnerReference) (owners : List OwnerReference)
    (hres : req.resource = podResource)
    (hdec : decode req.object.raw = .ok pod)
    (hlabel : pod.labels.find "middleware" = some "redis")
    (howner : pod.ownerReferences = owner :: owners)
    (hw1 : WorkloadHasTemplate cs1 pod.ns owner.name)
    (hw2 : WorkloadHasTemplate cs2 pod.ns owner.name) :
    ∃ r1 r2,
      applySecurityDefaults decode (some cs1) s1 req = .ok r1 ∧
      applySecurityDefaults decode (some cs2) s2 req = .ok r2 ∧
      r1.err = none ∧ r2.err = none ∧
      r1.patches = r2.patches ∧
      ∃ vols m,
        r1.patches = [⟨"replace", "/spec/volumes", .volumes vols⟩,
                      ⟨"replace", "/spec/nodeSelector", .nodeSelector m⟩] ∧
        ∀ v ∈ pod.spec.volumes, ∀ src, v.persistentVolumeClaim = some src →
          { name := v.name,
            persistentVolumeClaim :=
              some { claimName := src.claimName ++ "-replica", readOnly := src.readOnly },
            otherSource := v.otherSource } ∈ vols := by
  obtain ⟨w1, h1⟩ := rewriteVolumes_returns cs1 pod owner owners howner hw1
    pod.spec.volumes { state := s1, calls := [] }
  obtain ⟨w2, h2⟩ := rewriteVolumes_returns cs2 pod owner owners howner hw2
    pod.spec.volumes { state := s2, calls := [] }
  refine ⟨_, _,
    applySecurityDefaults_managed decode (some cs1) s1 req pod _ w1 hres hdec hlabel h1,
    applySecurityDefaults_managed decode (some cs2) s2 req pod _ w2 hres hdec hlabel h2,
    rfl, rfl, rfl, _, _, rfl, ?_⟩
  intro v hv src hsrc
  refine List.mem_map.mpr ⟨v, hv, ?_⟩
  simp [renameVolume, hsrc, replicaName]

theorem patch_independent_of_control_plane_witness :
    ∃ r1 r2,
      applySecurityDefaults (decodeTo redisPod)
        (some (fixedAnswers (.error .notFound) (.ok redisSet) (.error .alreadyExists))) 0
        podRequest = .ok r1 ∧
      applySecurityDefaults (decodeTo redisPod)
        (some (fixedAnswers (.error (.other "timeout")) (.ok redisSet)
          (.error (.other "forbidden")))) 0
        podRequest = .ok r2 ∧
      r1.err = none ∧ r2.err = none ∧
      r1.patches = r2.patches ∧
      ∃ vols m,
        r1.patches = [⟨"replace", "/spec/volumes", .volumes vols⟩,
                      ⟨"replace", "/spec/nodeSelector", .nodeSelector m⟩] ∧
        ∀ v ∈ redisPod.spec.volumes, ∀ src, v.persistentVolumeClaim = some src →
          { name := v.name,
            persistentVolumeClaim :=
              some { claimName := src.claimName ++ "-replica", readOnly := src.readOnly },
            otherSource := v.otherSource } ∈ vols :=
  patch_independent_of_control_plane (decodeTo redisPod)
    (fixedAnswers (.error .notFound) (.ok redisSet) (.error .alreadyExists)) 0
    (fixedAnswers (.error (.other "timeout")) (.ok redisSet) (.error (.other "forbidden"))) 0
    podRequest redisPod { kind := "StatefulSet", name := "redis-set" } [] rfl rfl
    (by decide) rfl (fun _ => ⟨redisSet, rfl, by decide⟩) (fun _ => ⟨redisSet, rfl, by decide⟩)

/-! ## Unguarded indexing -/

/-- A missing claim on a Pod without owner reference: the index expression
`pod.OwnerReferences[0]` panics. -/
theorem reconcileClaim_panics_without_owner {σ : Type} (cs : Clientset σ) (pod : Pod)
    (name : String) (w : World σ)
    (h : claimMissing cs w.state pod.ns name = true)
    (howner : pod.ownerReferences = []) :
    reconcileClaim (some cs) pod name w = .error (.indexOutOfRange 0 0) := by
  unfold claimMissing at h
  unfold reconcileClaim
  cases hg : cs.getPersistentVolumeClaim w.state pod.ns name with
  | ok c => simp [hg] at h
  | error e =>
    rw [hg] at h
    simp at h
    simp [hg, h, howner]

/-- Every managed Pod without owner reference whose first claim-backed volume
has no replica claim yet makes the handler panic. -/
theorem applySecurityDefaults_panics_without_owner {σ : Type}
    (decode : List UInt8 → Except String Pod) (cs : Clientset σ) (s : σ)
    (req : AdmissionRequest) (pod : Pod) (pre post : List Volume) (v : Volume)
    (src : PersistentVolumeClaimVolumeSource)
    (hres : req.resource = podResource)
    (hdec : decode req.object.raw = .ok pod)
    (hlabel : pod.labels.find "middleware" = some "redis")
    (hvols : pod.spec.volumes = pre ++ v :: post)
    (hpre : ∀ u ∈ pre, u.persistentVolumeClaim = none)
    (hv : v.persistentVolumeClaim = some src)
    (howner : pod.ownerReferences = [])
    (hmiss : claimMissing cs s pod.ns (replicaName src.claimName) = true) :
    applySecurityDefaults decode (some cs) s req = .error (.indexOutOfRange 0 0) := by
  have hc := reconcileClaim_panics_without_owner cs pod (replicaName src.claimName)
    { state := s, calls := [] } hmiss howner
  have hloop := rewriteVolumes_single_error (some cs) pod pre post v src
    { state := s, calls := [] } _ hpre hv hc
  rw [← hvols] at hloop
  exact applySecurityDefaults_managed_panic decode (some cs) s req pod _ hres hdec hlabel
    hloop

/-- C9 fails on the code: with the replica claim not found, a managed Pod
without owner reference makes the handler panic at `pod.OwnerReferences[0]`,
and a workload without template, or a failed workload lookup, makes it panic at
`sts.Spec.VolumeClaimTemplates[0]`; no patch is returned. -/
theorem unguarded_index_panics :
    applySecurityDefaults (decodeTo orphanPod) (some (claimStore [redisSet])) [] podRequest =
      .error (.indexOutOfRange 0 0) ∧
    applySecurityDefaults (decodeTo redisPod) (some (claimStore [bareSet])) [] podRequest =
      .error (.indexOutOfRange 0 0) ∧
    applySecurityDefaults (decodeTo redisPod) (some (claimStore [])) [] podRequest =
      .error (.indexOutOfRange 0 0) :=
  ⟨rfl, rfl, rfl⟩

end Webhook
